import Mathlib

/-!
Verification of the bounding-box codec of the ImagePython drone-inspection
scripts.

The embedded code comes from two scripts:

* `annotate_bboxes_from_url.py` — `_is_normalized`, `_yolo_to_corners`,
  `_qwen1000_to_corners`, and the per-item body of the drawing loop of
  `draw_bboxes` (format dispatch, source-size rescaling, auto-detection).
* `analyze_drone_image_yolo.py` — `convert_qwen1000_to_yolo` and
  `save_yolo_labels_auto`.

Python floats are idealized as exact rationals (`ℚ`).  Python `round` is
round-half-to-even (`pyRound`), Python `int(...)` truncates toward zero
(`truncQ`).  A bounding-box array coming from JSON is a `List (Option ℚ)`:
`some q` is an element that parses as the number `q`, `none` is an element
that fails to parse as a number.  An uncaught Python exception
(`ZeroDivisionError`, `TypeError`, `ValueError`) is `Except.error ()`; a
detection that the loop skips with `continue` contributes `none` / no line.
-/

namespace ImagePython

/-- Python `round(x)` with no digit argument: round half to even. -/
def pyRound (q : ℚ) : ℤ :=
  if q - ⌊q⌋ < 1 / 2 then ⌊q⌋
  else if 1 / 2 < q - ⌊q⌋ then ⌊q⌋ + 1
  else if ⌊q⌋ % 2 = 0 then ⌊q⌋ else ⌊q⌋ + 1

/-- Python `int(x)` on a float: truncation toward zero. -/
def truncQ (q : ℚ) : ℤ := if 0 ≤ q then ⌊q⌋ else -⌊-q⌋

/-- The clamp `max(0, min(limit - 1, x))` used on every coordinate by the
pixel-conversion helpers (`limit` is the image width or height). -/
def clampTo (limit x : ℤ) : ℤ := max 0 (min (limit - 1) x)

/-- Pixel corner box `(x1, y1, x2, y2)`. -/
abbrev PixBox := ℤ × ℤ × ℤ × ℤ

/-- `_is_normalized(vals)`: all values in `[0, 1]`. -/
def is_normalized (vals : List ℚ) : Bool :=
  vals.all fun v => decide (0 ≤ v) && decide (v ≤ 1)

/-- The Qwen-1000 range test of the `auto` branch of `draw_bboxes`:
all values in `[0, 1000]` and at least one value `> 1`. -/
def in_qwen_range (vals : List ℚ) : Bool :=
  (vals.all fun v => decide (0 ≤ v) && decide (v ≤ 1000)) &&
    (vals.any fun v => decide (1 < v))

/-- `_yolo_to_corners(xc, yc, w, h, img_w, img_h, normalized)`:
optionally scale by the image size, convert center form to corner form
with `round`, clamp every coordinate into the canvas. -/
def yolo_to_corners (xc yc w h : ℚ) (img_w img_h : ℤ) (normalized : Bool) :
    PixBox :=
  let xc' := if normalized then xc * img_w else xc
  let yc' := if normalized then yc * img_h else yc
  let w' := if normalized then w * img_w else w
  let h' := if normalized then h * img_h else h
  (clampTo img_w (pyRound (xc' - w' / 2)),
   clampTo img_h (pyRound (yc' - h' / 2)),
   clampTo img_w (pyRound (xc' + w' / 2)),
   clampTo img_h (pyRound (yc' + h' / 2)))

/-- `_qwen1000_to_corners(x1, y1, x2, y2, img_w, img_h)`: scale the
`[0, 1000]` corner coordinates by `img_w / 1000` resp. `img_h / 1000`,
round, clamp into the canvas. -/
def qwen1000_to_corners (x1 y1 x2 y2 : ℚ) (img_w img_h : ℤ) : PixBox :=
  let sx : ℚ := img_w / 1000
  let sy : ℚ := img_h / 1000
  (clampTo img_w (pyRound (x1 * sx)),
   clampTo img_h (pyRound (y1 * sy)),
   clampTo img_w (pyRound (x2 * sx)),
   clampTo img_h (pyRound (y2 * sy)))

/-- The four box encodings of the spec's data model. -/
inductive Encoding
  | Corners
  | YoloNormalized
  | YoloAbsolute
  | Qwen1000
deriving DecidableEq

/-- The ordered encoding decision table of the `auto` branch of
`draw_bboxes` (lines 205-222): length 4 tries normalized, then the
Qwen-1000 range, then falls back to pixel corners; length 5 applies the
same range tests to elements `[1:5]` and falls back to absolute YOLO.
Any other length is skipped (`none`). -/
def classify (nums : List ℚ) : Option Encoding :=
  if nums.length = 5 then
    let last4 := nums.drop 1
    if is_normalized last4 then some .YoloNormalized
    else if in_qwen_range last4 then some .Qwen1000
    else some .YoloAbsolute
  else if nums.length = 4 then
    if is_normalized nums then some .YoloNormalized
    else if in_qwen_range nums then some .Qwen1000
    else some .Corners
  else none

/-- The `--bbox-format` choices accepted by `draw_bboxes`. -/
inductive Fmt
  | corners
  | yolo_norm
  | yolo_abs
  | yolo_norm5
  | yolo_abs5
  | qwen1000
  | qwen1000_5
  | auto
deriving DecidableEq

/-- Whether the format string is one of the four YOLO variants. -/
def Fmt.isYolo : Fmt → Bool
  | .yolo_norm | .yolo_abs | .yolo_norm5 | .yolo_abs5 => true
  | _ => false

/-- Whether the YOLO variant is normalized (`yolo_norm` / `yolo_norm5`). -/
def Fmt.isNorm : Fmt → Bool
  | .yolo_norm | .yolo_norm5 => true
  | _ => false

/-- Whether the format string is a Qwen-1000 variant. -/
def Fmt.isQwen : Fmt → Bool
  | .qwen1000 | .qwen1000_5 => true
  | _ => false

/-- The `nums = [float(v) for v in bbox]` step of the drawing loop:
all-or-nothing numeric parsing of the raw box. -/
def parse_nums : List (Option ℚ) → Option (List ℚ)
  | [] => some []
  | none :: _ => none
  | some q :: rest => (parse_nums rest).map (q :: ·)

/-- One iteration of the drawing loop of `draw_bboxes` (lines 156-222),
restricted to the computation of the pixel rectangle.  `Except.error ()`
is an uncaught exception (the `ZeroDivisionError` of the unguarded
`img_w / float(src_w)` in the absolute-YOLO rescale), `.ok none` is a
skipped detection (`continue`), `.ok (some b)` is a drawn rectangle. -/
def draw_one (fmt : Fmt) (source_size : Option (ℤ × ℤ)) (img_w img_h : ℤ)
    (bbox : List (Option ℚ)) : Except Unit (Option PixBox) :=
  if bbox.isEmpty then .ok none
  else
    match parse_nums bbox with
    | none => .ok none
    | some nums0 =>
      let nums :=
        if fmt = .corners then
          match source_size, nums0 with
          | some (src_w, src_h), [a, b, c, d] =>
            if 0 < src_w ∧ 0 < src_h then
              [a * ((img_w : ℚ) / src_w), b * ((img_h : ℚ) / src_h),
               c * ((img_w : ℚ) / src_w), d * ((img_h : ℚ) / src_h)]
            else nums0
          | _, _ => nums0
        else nums0
      if fmt = .corners then
        match nums with
        | [a, b, c, d] => .ok (some (truncQ a, truncQ b, truncQ c, truncQ d))
        | _ => .ok none
      else if fmt.isYolo then
        let ext : Option (ℚ × ℚ × ℚ × ℚ) :=
          match nums with
          | [xc, yc, w, h] => some (xc, yc, w, h)
          | [_, xc, yc, w, h] => some (xc, yc, w, h)
          | _ => none
        match ext with
        | none => .ok none
        | some (xc, yc, w, h) =>
          if fmt.isNorm then
            .ok (some (yolo_to_corners xc yc w h img_w img_h true))
          else
            match source_size with
            | some (src_w, src_h) =>
              if src_w = 0 ∨ src_h = 0 then .error ()
              else
                .ok (some (yolo_to_corners (xc * ((img_w : ℚ) / src_w))
                  (yc * ((img_h : ℚ) / src_h)) (w * ((img_w : ℚ) / src_w))
                  (h * ((img_h : ℚ) / src_h)) img_w img_h false))
            | none => .ok (some (yolo_to_corners xc yc w h img_w img_h false))
      else if fmt.isQwen then
        match nums with
        | [x1, y1, x2, y2] =>
          .ok (some (qwen1000_to_corners x1 y1 x2 y2 img_w img_h))
        | [_, x1, y1, x2, y2] =>
          .ok (some (qwen1000_to_corners x1 y1 x2 y2 img_w img_h))
        | _ => .ok none
      else
        match nums with
        | [a, b, c, d] =>
          match classify [a, b, c, d] with
          | some .YoloNormalized =>
            .ok (some (yolo_to_corners a b c d img_w img_h true))
          | some .Qwen1000 =>
            .ok (some (qwen1000_to_corners a b c d img_w img_h))
          | _ => .ok (some (truncQ a, truncQ b, truncQ c, truncQ d))
        | [c0, a, b, c, d] =>
          match classify [c0, a, b, c, d] with
          | some .YoloNormalized =>
            .ok (some (yolo_to_corners a b c d img_w img_h true))
          | some .Qwen1000 =>
            .ok (some (qwen1000_to_corners a b c d img_w img_h))
          | _ => .ok (some (yolo_to_corners a b c d img_w img_h false))
        | _ => .ok none

/-- The whole drawing loop of `draw_bboxes`: the list of pixel rectangles
actually drawn, in input order; an uncaught exception aborts the call. -/
def draw_bboxes (fmt : Fmt) (source_size : Option (ℤ × ℤ)) (img_w img_h : ℤ) :
    List (List (Option ℚ)) → Except Unit (List PixBox)
  | [] => .ok []
  | item :: rest =>
    match draw_one fmt source_size img_w img_h item with
    | .error e => .error e
    | .ok r =>
      match draw_bboxes fmt source_size img_w img_h rest with
      | .error e => .error e
      | .ok rs => .ok (match r with | none => rs | some b => b :: rs)

/-- A number rendered by Python fixed-point formatting: the string
`f"{q:.places f}"` shows the integer `mantissa` with exactly `places`
digits after the decimal point. -/
structure FixedDec where
  mantissa : ℤ
  places : ℕ
deriving DecidableEq

/-- Python `f"{q:.Nf}"`: round `q` to `N` decimal places (half to even). -/
def formatFixed (places : ℕ) (q : ℚ) : FixedDec :=
  ⟨pyRound (q * 10 ^ places), places⟩

/-- One output line of the label export: the integer `class_id` followed by
the four fixed-point coordinate fields. -/
abbrev Line := ℤ × List FixedDec

/-- `convert_qwen1000_to_yolo(bbox_qwen, class_id)`: divide the four corner
coordinates by 1000 and convert corners to center plus dimensions;
`None` when the box does not have exactly 4 elements. -/
def convert_qwen1000_to_yolo (bbox_qwen : List ℚ) (class_id : ℤ) :
    Option (ℤ × ℚ × ℚ × ℚ × ℚ) :=
  match bbox_qwen with
  | [x1, y1, x2, y2] =>
    let x1' := x1 / 1000
    let y1' := y1 / 1000
    let x2' := x2 / 1000
    let y2' := y2 / 1000
    some (class_id, (x1' + x2') / 2, (y1' + y2') / 2, x2' - x1', y2' - y1')
  | _ => none

/-- One iteration of the export loop of `save_yolo_labels_auto`:
`.ok none` when the crack contributes no line, `.ok (some l)` when it
contributes the line `l`, `.error ()` when the iteration raises
(`TypeError` / `ValueError` on an element that is not a number). -/
def save_one (format_type : String) (bbox : List (Option ℚ)) :
    Except Unit (Option Line) :=
  if bbox.isEmpty then .ok none
  else if format_type = "Qwen-1000" ∧ bbox.length = 4 then
    match bbox with
    | [some a, some b, some c, some d] =>
      match convert_qwen1000_to_yolo [a, b, c, d] 0 with
      | some (cid, xc, yc, w, h) =>
        .ok (some (cid, [formatFixed 6 xc, formatFixed 6 yc,
          formatFixed 6 w, formatFixed 6 h]))
      | none => .ok none
    | _ => .error ()
  else if 5 ≤ bbox.length then
    match bbox with
    | some c0 :: some a :: some b :: some c :: some d :: _ =>
      .ok (some (truncQ c0, [formatFixed 6 a, formatFixed 6 b,
        formatFixed 6 c, formatFixed 6 d]))
    | _ => .error ()
  else .ok none

/-- `save_yolo_labels_auto(cracks, output_path, format_type)`: the list of
label lines written to the file, one per exported crack, in input order. -/
def save_yolo_labels_auto (cracks : List (List (Option ℚ)))
    (format_type : String) : Except Unit (List Line) :=
  match cracks with
  | [] => .ok []
  | crack :: rest =>
    match save_one format_type crack with
    | .error e => .error e
    | .ok r =>
      match save_yolo_labels_auto rest format_type with
      | .error e => .error e
      | .ok rs => .ok (match r with | none => rs | some l => l :: rs)

/-! ### Basic properties of the rounding and clamping primitives -/

theorem floor_le_pyRound (q : ℚ) : ⌊q⌋ ≤ pyRound q := by
  unfold pyRound
  split_ifs <;> omega

theorem pyRound_le_floor_add_one (q : ℚ) : pyRound q ≤ ⌊q⌋ + 1 := by
  unfold pyRound
  split_ifs <;> omega

theorem pyRound_intCast (n : ℤ) : pyRound (n : ℚ) = n := by
  unfold pyRound
  rw [Int.floor_intCast]
  norm_num

theorem pyRound_mono {a b : ℚ} (hab : a ≤ b) : pyRound a ≤ pyRound b := by
  rcases lt_or_eq_of_le (Int.floor_le_floor hab) with hf | hf
  · have h1 := pyRound_le_floor_add_one a
    have h2 := floor_le_pyRound b
    omega
  · unfold pyRound
    rw [hf]
    split_ifs <;> first | omega | linarith

theorem clampTo_nonneg (limit x : ℤ) : 0 ≤ clampTo limit x := by
  unfold clampTo
  omega

theorem clampTo_le {limit : ℤ} (h : 1 ≤ limit) (x : ℤ) :
    clampTo limit x ≤ limit - 1 := by
  unfold clampTo
  omega

theorem clampTo_mono (limit : ℤ) {x y : ℤ} (h : x ≤ y) :
    clampTo limit x ≤ clampTo limit y := by
  unfold clampTo
  omega

theorem clampTo_eq_self {limit x : ℤ} (h0 : 0 ≤ x) (h1 : x ≤ limit - 1) :
    clampTo limit x = x := by
  unfold clampTo
  omega

theorem is_normalized_iff (l : List ℚ) :
    is_normalized l = true ↔ ∀ v ∈ l, 0 ≤ v ∧ v ≤ 1 := by
  simp [is_normalized, List.all_eq_true]

theorem in_qwen_range_iff (l : List ℚ) :
    in_qwen_range l = true ↔
      (∀ v ∈ l, 0 ≤ v ∧ v ≤ 1000) ∧ ∃ v ∈ l, 1 < v := by
  simp [in_qwen_range, List.all_eq_true, List.any_eq_true]

theorem yolo_to_corners_true (xc yc w h : ℚ) (img_w img_h : ℤ) :
    yolo_to_corners xc yc w h img_w img_h true =
      (clampTo img_w (pyRound (xc * img_w - w * img_w / 2)),
       clampTo img_h (pyRound (yc * img_h - h * img_h / 2)),
       clampTo img_w (pyRound (xc * img_w + w * img_w / 2)),
       clampTo img_h (pyRound (yc * img_h + h * img_h / 2))) := by
  simp [yolo_to_corners]

theorem yolo_to_corners_false (xc yc w h : ℚ) (img_w img_h : ℤ) :
    yolo_to_corners xc yc w h img_w img_h false =
      (clampTo img_w (pyRound (xc - w / 2)),
       clampTo img_h (pyRound (yc - h / 2)),
       clampTo img_w (pyRound (xc + w / 2)),
       clampTo img_h (pyRound (yc + h / 2))) := by
  simp [yolo_to_corners]

theorem parse_nums_length {raw : List (Option ℚ)} {nums : List ℚ}
    (h : parse_nums raw = some nums) : nums.length = raw.length := by
  induction raw generalizing nums with
  | nil => simp [parse_nums] at h; simp [← h]
  | cons x rest ih =>
    match x with
    | none => simp [parse_nums] at h
    | some q =>
      simp only [parse_nums, Option.map_eq_some'] at h
      obtain ⟨tail, htail, rfl⟩ := h
      simp [ih htail]

theorem draw_one_skip (fmt : Fmt) (src : Option (ℤ × ℤ)) (W H : ℤ)
    {item : List (Option ℚ)}
    (h : parse_nums item = none ∨ item.length < 4) :
    draw_one fmt src W H item = .ok none := by
  by_cases he : item.isEmpty
  · simp [draw_one, he]
  · rcases h with h | h
    · simp [draw_one, he, h]
    · cases hp : parse_nums item with
      | none => simp [draw_one, he, hp]
      | some nums =>
        have hl : nums.length < 4 := by rw [parse_nums_length hp]; exact h
        rcases src with _ | ⟨sw, sh⟩
        · rcases nums with _ | ⟨a, _ | ⟨b, _ | ⟨c, _ | ⟨d, t⟩⟩⟩⟩
          · cases fmt <;> simp [draw_one, he, hp]
          · cases fmt <;> simp [draw_one, he, hp]
          · cases fmt <;> simp [draw_one, he, hp]
          · cases fmt <;> simp [draw_one, he, hp]
          · simp at hl; omega
        · rcases nums with _ | ⟨a, _ | ⟨b, _ | ⟨c, _ | ⟨d, t⟩⟩⟩⟩
          · cases fmt <;> simp [draw_one, he, hp]
          · cases fmt <;> simp [draw_one, he, hp]
          · cases fmt <;> simp [draw_one, he, hp]
          · cases fmt <;> simp [draw_one, he, hp]
          · simp at hl; omega

theorem save_one_skip (fmtT : String) {bbox : List (Option ℚ)}
    (h : bbox.length < 4) : save_one fmtT bbox = .ok none := by
  rcases bbox with _ | ⟨x, _ | ⟨y, _ | ⟨z, _ | ⟨u, t⟩⟩⟩⟩
  · simp [save_one]
  · simp [save_one]
  · simp [save_one]
  · simp [save_one]
  · simp at h; omega

theorem save_one_places {fmtT : String} {bbox : List (Option ℚ)} {l : Line}
    (h : save_one fmtT bbox = .ok (some l)) :
    l.2.length = 4 ∧ ∀ f ∈ l.2, f.places = 6 := by
  unfold save_one at h
  split_ifs at h with h1 h2 h3
  · simp at h
  · split at h
    · simp only [convert_qwen1000_to_yolo, Except.ok.injEq, Option.some.injEq] at h
      subst h
      simp [formatFixed]
    · simp at h
  · split at h
    · simp only [Except.ok.injEq, Option.some.injEq] at h
      subst h
      simp [formatFixed]
    · simp at h
  · simp at h

theorem draw_bboxes_drop (fmt : Fmt) (src : Option (ℤ × ℤ)) (W H : ℤ)
    (pre post : List (List (Option ℚ))) {item : List (Option ℚ)}
    (h : parse_nums item = none ∨ item.length < 4) :
    draw_bboxes fmt src W H (pre ++ item :: post) =
      draw_bboxes fmt src W H (pre ++ post) := by
  induction pre with
  | nil =>
    simp only [List.nil_append, draw_bboxes, draw_one_skip fmt src W H h]
    cases draw_bboxes fmt src W H post <;> simp
  | cons x xs ih =>
    simp only [List.cons_append, draw_bboxes, List.append_eq]
    rw [ih]

theorem save_labels_drop (fmtT : String)
    (pre post : List (List (Option ℚ))) {item : List (Option ℚ)}
    (h : item.length < 4) :
    save_yolo_labels_auto (pre ++ item :: post) fmtT =
      save_yolo_labels_auto (pre ++ post) fmtT := by
  induction pre with
  | nil =>
    simp only [List.nil_append, save_yolo_labels_auto, save_one_skip fmtT h]
    cases save_yolo_labels_auto post fmtT <;> simp
  | cons x xs ih =>
    simp only [List.cons_append, save_yolo_labels_auto, List.append_eq]
    rw [ih]

/-- Every line produced by an export has the class id followed by exactly
four coordinate fields, each formatted with 6 decimal places. -/
def SixDecimalLines (lines : List Line) : Prop :=
  ∀ l ∈ lines, (l.2.length = 4 ∧ ∀ f ∈ l.2, f.places = 6)

theorem save_labels_places {cracks : List (List (Option ℚ))} {fmtT : String}
    {lines : List Line} (h : save_yolo_labels_auto cracks fmtT = .ok lines) :
    SixDecimalLines lines := by
  induction cracks generalizing lines with
  | nil =>
    simp only [save_yolo_labels_auto, Except.ok.injEq] at h
    subst h
    intro l hl
    simp at hl
  | cons crack rest ih =>
    unfold save_yolo_labels_auto at h
    cases ho : save_one fmtT crack with
    | error e => rw [ho] at h; simp at h
    | ok r =>
      rw [ho] at h
      cases hr : save_yolo_labels_auto rest fmtT with
      | error e => rw [hr] at h; simp at h
      | ok rs =>
        rw [hr] at h
        simp only [Except.ok.injEq] at h
        subst h
        have hrest := ih hr
        cases r with
        | none => exact hrest
        | some l0 =>
          intro l hl
          rcases List.mem_cons.mp hl with rfl | hmem
          · exact save_one_places ho
          · exact hrest l hmem

/-! ### Spec-modelled inverse conversions and invariant predicates -/

/-- Whether a pixel box lies inside the `W × H` canvas. -/
def inCanvas (W H : ℤ) (p : PixBox) : Prop :=
  0 ≤ p.1 ∧ p.1 ≤ W - 1 ∧ 0 ≤ p.2.1 ∧ p.2.1 ≤ H - 1 ∧
    0 ≤ p.2.2.1 ∧ p.2.2.1 ≤ W - 1 ∧ 0 ≤ p.2.2.2 ∧ p.2.2.2 ≤ H - 1

/-- Whether the corner box is well oriented (`x1 ≤ x2` and `y1 ≤ y2`). -/
def oriented (p : PixBox) : Prop := p.1 ≤ p.2.2.1 ∧ p.2.1 ≤ p.2.2.2

/-- Modelled from the spec: `toEncoding(pixelCorners, YoloNormalized, canvas)`,
the exact inverse of the `YoloNormalized` branch of `toPixelCorners`
(center and extent as fractions of the canvas).  No pixel-to-encoding
conversion exists in the source; the spec defines `toEncoding` as the
exact inverse of `toPixelCorners` for each encoding. -/
def toEncodingYoloNormalized (img_w img_h : ℤ) (p : PixBox) : ℚ × ℚ × ℚ × ℚ :=
  (((p.1 : ℚ) + p.2.2.1) / 2 / img_w, ((p.2.1 : ℚ) + p.2.2.2) / 2 / img_h,
   ((p.2.2.1 : ℚ) - p.1) / img_w, ((p.2.2.2 : ℚ) - p.2.1) / img_h)

/-- Modelled from the spec: `toEncoding(pixelCorners, Qwen1000, canvas)`,
the exact inverse of the `Qwen1000` branch of `toPixelCorners` (corners
rescaled onto the fixed 0-1000 grid). -/
def toEncodingQwen1000 (img_w img_h : ℤ) (p : PixBox) : ℚ × ℚ × ℚ × ℚ :=
  ((p.1 : ℚ) * 1000 / img_w, (p.2.1 : ℚ) * 1000 / img_h,
   (p.2.2.1 : ℚ) * 1000 / img_w, (p.2.2.2 : ℚ) * 1000 / img_h)

/-- Round trip pixel corners → `YoloNormalized` → pixel corners. -/
def roundTripYolo (img_w img_h : ℤ) (p : PixBox) : PixBox :=
  match toEncodingYoloNormalized img_w img_h p with
  | (xc, yc, w, h) => yolo_to_corners xc yc w h img_w img_h true

/-- Round trip pixel corners → `Qwen1000` → pixel corners. -/
def roundTripQwen (img_w img_h : ℤ) (p : PixBox) : PixBox :=
  match toEncodingQwen1000 img_w img_h p with
  | (x1, y1, x2, y2) => qwen1000_to_corners x1 y1 x2 y2 img_w img_h

theorem classify4_eq (a b c d : ℚ) :
    classify [a, b, c, d] =
      if is_normalized [a, b, c, d] then some Encoding.YoloNormalized
      else if in_qwen_range [a, b, c, d] then some Encoding.Qwen1000
      else some Encoding.Corners := by
  simp [classify]

theorem classify5_eq (e a b c d : ℚ) :
    classify [e, a, b, c, d] =
      if is_normalized [a, b, c, d] then some Encoding.YoloNormalized
      else if in_qwen_range [a, b, c, d] then some Encoding.Qwen1000
      else some Encoding.YoloAbsolute := by
  simp [classify]

/-! ### The claims -/

/-- C1 (confirmed): `classify` implements the ordered decision table: a
length-4 box all of whose values lie in `[0, 1]` is `YoloNormalized`;
otherwise, all values in `[0, 1000]` with at least one above `1` gives
`Qwen1000`; otherwise `Corners`.  A length-5 box applies the same tests to
its trailing four elements (element 0 is the class id) and falls back to
`YoloAbsolute`.  The three concrete example boxes classify as stated. -/
theorem C1_classify_decision_table (a b c d e : ℚ) :
    ((∀ v ∈ [a, b, c, d], 0 ≤ v ∧ v ≤ 1) →
        classify [a, b, c, d] = some Encoding.YoloNormalized)
  ∧ (¬ (∀ v ∈ [a, b, c, d], 0 ≤ v ∧ v ≤ 1) →
      ((∀ v ∈ [a, b, c, d], 0 ≤ v ∧ v ≤ 1000) ∧ ∃ v ∈ [a, b, c, d], 1 < v) →
        classify [a, b, c, d] = some Encoding.Qwen1000)
  ∧ (¬ (∀ v ∈ [a, b, c, d], 0 ≤ v ∧ v ≤ 1) →
      ¬ ((∀ v ∈ [a, b, c, d], 0 ≤ v ∧ v ≤ 1000) ∧ ∃ v ∈ [a, b, c, d], 1 < v) →
        classify [a, b, c, d] = some Encoding.Corners)
  ∧ ((∀ v ∈ [a, b, c, d], 0 ≤ v ∧ v ≤ 1) →
        classify [e, a, b, c, d] = some Encoding.YoloNormalized)
  ∧ (¬ (∀ v ∈ [a, b, c, d], 0 ≤ v ∧ v ≤ 1) →
      ((∀ v ∈ [a, b, c, d], 0 ≤ v ∧ v ≤ 1000) ∧ ∃ v ∈ [a, b, c, d], 1 < v) →
        classify [e, a, b, c, d] = some Encoding.Qwen1000)
  ∧ (¬ (∀ v ∈ [a, b, c, d], 0 ≤ v ∧ v ≤ 1) →
      ¬ ((∀ v ∈ [a, b, c, d], 0 ≤ v ∧ v ≤ 1000) ∧ ∃ v ∈ [a, b, c, d], 1 < v) →
        classify [e, a, b, c, d] = some Encoding.YoloAbsolute)
  ∧ classify [0.52, 0.41, 0.08, 0.05] = some Encoding.YoloNormalized
  ∧ classify [250, 250, 500, 500] = some Encoding.Qwen1000
  ∧ classify [1200, 300, 1400, 500] = some Encoding.Corners := by
  have hnorm := is_normalized_iff [a, b, c, d]
  have hqwen := in_qwen_range_iff [a, b, c, d]
  refine ⟨fun h1 => ?_, fun h1 h2 => ?_, fun h1 h2 => ?_,
    fun h1 => ?_, fun h1 h2 => ?_, fun h1 h2 => ?_,
    by with_unfolding_all decide, by with_unfolding_all decide,
    by with_unfolding_all decide⟩
  · rw [classify4_eq, if_pos (hnorm.mpr h1)]
  · rw [classify4_eq, if_neg (fun hc => h1 (hnorm.mp hc)),
      if_pos (hqwen.mpr ⟨h2.1, h2.2⟩)]
  · rw [classify4_eq, if_neg (fun hc => h1 (hnorm.mp hc)),
      if_neg (fun hc => h2 (hqwen.mp hc))]
  · rw [classify5_eq, if_pos (hnorm.mpr h1)]
  · rw [classify5_eq, if_neg (fun hc => h1 (hnorm.mp hc)),
      if_pos (hqwen.mpr ⟨h2.1, h2.2⟩)]
  · rw [classify5_eq, if_neg (fun hc => h1 (hnorm.mp hc)),
      if_neg (fun hc => h2 (hqwen.mp hc))]

theorem C1_witness :
    classify [(0.52 : ℚ), 0.41, 0.08, 0.05] = some Encoding.YoloNormalized :=
  (C1_classify_decision_table 0.52 0.41 0.08 0.05 0).1
    (by norm_num [List.forall_mem_cons])

/-- C2 counterexample: on the `corners` branch with no source rescale, the
code truncates with `int(...)` and never clamps, so the box
`[10.7, 20.7, 30.7, 1200.5]` on a 100×100 canvas yields `(10, 20, 30, 1200)`,
which is not the claimed round-then-clamp result. -/
theorem C2_corners_counterexample :
    draw_one Fmt.corners none 100 100
        [some (107 / 10), some (207 / 10), some (307 / 10), some (2401 / 2)] =
      Except.ok (some (10, 20, 30, 1200))
  ∧ ((10 : ℤ), (20 : ℤ), (30 : ℤ), (1200 : ℤ)) ≠
      (clampTo 100 (pyRound (107 / 10)), clampTo 100 (pyRound (207 / 10)),
       clampTo 100 (pyRound (307 / 10)), clampTo 100 (pyRound (2401 / 2))) :=
  ⟨by with_unfolding_all rfl, by with_unfolding_all decide⟩

/-- C2 (amended): for every length-4 box in `Corners` encoding with no
source-resolution rescale, `toPixelCorners` truncates every coordinate
toward zero (Python `int`) and performs no rounding to nearest and no
clamping into the canvas. -/
theorem C2_corners_branch_truncates (a b c d : ℚ) (W H : ℤ) :
    draw_one Fmt.corners none W H [some a, some b, some c, some d] =
      Except.ok (some (truncQ a, truncQ b, truncQ c, truncQ d)) := by
  simp [draw_one, parse_nums]

/-- C3 (confirmed): the `YoloNormalized` branch multiplies `xc, yc, w, h`
by `W, H, W, H`, converts center form to corner form, rounds to nearest,
and clamps into the canvas; the example box `[0, 0.356, 0.568, 0.076, 0.026]`
on a 1000×800 canvas yields pixel corners `(318, 444, 394, 465)`. -/
theorem C3_yolo_normalized_to_pixels (xc yc w h : ℚ) (W H : ℤ) :
    yolo_to_corners xc yc w h W H true =
      (clampTo W (pyRound (xc * W - w * W / 2)),
       clampTo H (pyRound (yc * H - h * H / 2)),
       clampTo W (pyRound (xc * W + w * W / 2)),
       clampTo H (pyRound (yc * H + h * H / 2)))
  ∧ draw_one Fmt.auto none 1000 800
      [some 0, some 0.356, some 0.568, some 0.076, some 0.026] =
      Except.ok (some (318, 444, 394, 465)) :=
  ⟨yolo_to_corners_true xc yc w h W H, by with_unfolding_all rfl⟩

/-- C4 (confirmed): the `Qwen1000` branch divides every coordinate by 1000,
multiplies x by the width and y by the height, rounds to nearest, and
clamps into the canvas; the example box `[320, 350, 400, 380]` on a
1920×1080 canvas yields pixel corners `(614, 378, 768, 410)`. -/
theorem C4_qwen1000_to_pixels (x1 y1 x2 y2 : ℚ) (W H : ℤ) :
    qwen1000_to_corners x1 y1 x2 y2 W H =
      (clampTo W (pyRound (x1 / 1000 * W)),
       clampTo H (pyRound (y1 / 1000 * H)),
       clampTo W (pyRound (x2 / 1000 * W)),
       clampTo H (pyRound (y2 / 1000 * H)))
  ∧ qwen1000_to_corners 320 350 400 380 1920 1080 = (614, 378, 768, 410) := by
  constructor
  · have e1 : x1 * ((W : ℚ) / 1000) = x1 / 1000 * W := by ring
    have e2 : y1 * ((H : ℚ) / 1000) = y1 / 1000 * H := by ring
    have e3 : x2 * ((W : ℚ) / 1000) = x2 / 1000 * W := by ring
    have e4 : y2 * ((H : ℚ) / 1000) = y2 / 1000 * H := by ring
    simp only [qwen1000_to_corners]
    rw [e1, e2, e3, e4]
  · with_unfolding_all decide

/-- C5 counterexample: the absolute-YOLO rescale divides by the supplied
source dimensions without a zero guard, so a zero source width aborts the
conversion with a `ZeroDivisionError` instead of being treated as "no
rescaling". -/
theorem C5_zero_source_counterexample :
    draw_one Fmt.yolo_abs (some (0, 480)) 100 100
        [some 10, some 10, some 5, some 5] = Except.error ()
  ∧ (Except.error () : Except Unit (Option PixBox)) ≠ Except.ok none :=
  ⟨by with_unfolding_all rfl, fun hcon => Except.noConfusion hcon⟩

/-- C5 (amended): on the `corners` branch a supplied source resolution with
a non-positive width or height is treated as "no rescaling" and the
conversion completes without failure; the `yolo_abs` branch treats an
absent source resolution as no rescaling, but a supplied source resolution
with a zero dimension raises (division by zero) and aborts the detection. -/
theorem C5_source_resolution_guards (a b c d : ℚ) (W H sw sh : ℤ) :
    (sw ≤ 0 ∨ sh ≤ 0 →
      draw_one Fmt.corners (some (sw, sh)) W H [some a, some b, some c, some d] =
        draw_one Fmt.corners none W H [some a, some b, some c, some d])
  ∧ draw_one Fmt.yolo_abs none W H [some a, some b, some c, some d] =
      Except.ok (some (yolo_to_corners a b c d W H false))
  ∧ (sw = 0 ∨ sh = 0 →
      draw_one Fmt.yolo_abs (some (sw, sh)) W H [some a, some b, some c, some d] =
        Except.error ()) := by
  refine ⟨fun hle => ?_, ?_, fun heq => ?_⟩
  · have hng : ¬(0 < sw ∧ 0 < sh) := by omega
    simp [draw_one, parse_nums, hng]
  · simp [draw_one, parse_nums, Fmt.isYolo, Fmt.isNorm]
  · rcases heq with rfl | rfl <;>
      simp [draw_one, parse_nums, Fmt.isYolo, Fmt.isNorm]

theorem C5_witness :
    (draw_one Fmt.corners (some (0, 480)) 64 48 [some 1, some 2, some 3, some 4] =
      draw_one Fmt.corners none 64 48 [some 1, some 2, some 3, some 4])
  ∧ draw_one Fmt.yolo_abs (some (0, 480)) 64 48 [some 1, some 2, some 3, some 4] =
      Except.error () :=
  ⟨(C5_source_resolution_guards 1 2 3 4 64 48 0 480).1 (Or.inl le_rfl),
   (C5_source_resolution_guards 1 2 3 4 64 48 0 480).2.2 (Or.inl rfl)⟩

/-- C6 counterexample: in the export path, a length-4 box whose elements
are not numbers under the declared `Qwen-1000` format is not skipped: the
unprotected arithmetic raises and aborts the export. -/
theorem C6_export_nonnumeric_fatal :
    save_yolo_labels_auto [[none, none, none, none]] "Qwen-1000" =
      Except.error ()
  ∧ (Except.error () : Except Unit (List Line)) ≠ Except.ok [] :=
  ⟨by with_unfolding_all rfl, fun hcon => Except.noConfusion hcon⟩

/-- C6 (amended): in the drawing loop a detection whose box has fewer than
4 elements or fails numeric parsing is skipped and the rest of the batch is
unaffected; in the export loop a box with fewer than 4 elements is skipped
(a non-numeric element inside a selected branch, however, aborts the
export); a draw or export over zero valid detections yields an empty
output; the length-2 box `[5, 5]` is excluded from both rendering and
export. -/
theorem C6_malformed_skipped (fmt : Fmt) (src : Option (ℤ × ℤ)) (W H : ℤ)
    (fmtT : String) (pre post : List (List (Option ℚ)))
    (item : List (Option ℚ)) :
    ((parse_nums item = none ∨ item.length < 4) →
      draw_bboxes fmt src W H (pre ++ item :: post) =
        draw_bboxes fmt src W H (pre ++ post))
  ∧ (item.length < 4 →
      save_yolo_labels_auto (pre ++ item :: post) fmtT =
        save_yolo_labels_auto (pre ++ post) fmtT)
  ∧ draw_bboxes fmt src W H [] = Except.ok []
  ∧ save_yolo_labels_auto [] fmtT = Except.ok []
  ∧ draw_bboxes fmt src W H [[some 5, some 5]] = Except.ok []
  ∧ save_yolo_labels_auto [[some 5, some 5]] fmtT = Except.ok [] := by
  refine ⟨fun hm => draw_bboxes_drop fmt src W H pre post hm,
    fun hl => save_labels_drop fmtT pre post hl, rfl, rfl, ?_, ?_⟩
  · simp [draw_bboxes,
      draw_one_skip fmt src W H (Or.inr (by norm_num : ([some (5:ℚ), some 5]).length < 4))]
  · simp [save_yolo_labels_auto,
      save_one_skip fmtT (by norm_num : ([some (5:ℚ), some 5]).length < 4)]

theorem C6_witness :
    draw_bboxes Fmt.auto none 100 100
        ([[some 1, some 2, some 3, some 4]] ++ [some 5, some 5] :: []) =
      draw_bboxes Fmt.auto none 100 100 ([[some 1, some 2, some 3, some 4]] ++ []) :=
  (C6_malformed_skipped Fmt.auto none 100 100 "YOLO"
      [[some 1, some 2, some 3, some 4]] [] [some 5, some 5]).1
    (Or.inr (by norm_num))

/-- C7 counterexample: a `Qwen-1000` detection is exported through the YOLO
conversion with 6 decimal places per coordinate (not 2), and a plain
corners detection under a non-Qwen declared format is not exported at all. -/
theorem C7_two_decimal_counterexample :
    save_yolo_labels_auto [[some 320, some 350, some 400, some 380]] "Qwen-1000" =
      Except.ok [((0 : ℤ), [⟨360000, 6⟩, ⟨365000, 6⟩, ⟨80000, 6⟩, ⟨30000, 6⟩])]
  ∧ (⟨360000, 6⟩ : FixedDec).places ≠ 2
  ∧ save_yolo_labels_auto [[some 352, some 449, some 392, some 471]] "YOLO" =
      Except.ok [] :=
  ⟨by with_unfolding_all rfl, by decide, by with_unfolding_all rfl⟩

/-- C7 (amended): every line the export writes consists of the class id
followed by exactly four coordinate fields, and every coordinate field of
every exported detection — whatever its encoding — is formatted with
exactly 6 decimal places. -/
theorem C7_export_precision (cracks : List (List (Option ℚ))) (fmtT : String)
    (lines : List Line) (h : save_yolo_labels_auto cracks fmtT = .ok lines) :
    SixDecimalLines lines :=
  save_labels_places h

theorem C7_witness :
    SixDecimalLines [((0 : ℤ), [⟨360000, 6⟩, ⟨365000, 6⟩, ⟨80000, 6⟩, ⟨30000, 6⟩])] :=
  C7_export_precision [[some 320, some 350, some 400, some 380]] "Qwen-1000"
    [((0 : ℤ), [⟨360000, 6⟩, ⟨365000, 6⟩, ⟨80000, 6⟩, ⟨30000, 6⟩])]
    (by with_unfolding_all rfl)

/-- C8 counterexample: in exact arithmetic the round trip through
`YoloNormalized` (and through `Qwen1000`) is exactly equal to the original
pixel corners even when the intermediate values are non-integer, so the
round trip is not "never exactly equal for non-integer-producing
conversions": the center `(2 + 5) / 2 = 3.5` is not an integer, yet the
trip through a 10×10 canvas reproduces `(2, 3, 5, 7)` exactly; likewise
`1 * 1000 / 3` is not an integer yet the Qwen trip through a 3×3 canvas
reproduces `(1, 1, 2, 2)` exactly. -/
theorem C8_exact_with_noninteger_intermediate :
    roundTripYolo 10 10 (2, 3, 5, 7) = (2, 3, 5, 7)
  ∧ (((2 : ℚ) + 5) / 2).den ≠ 1
  ∧ roundTripQwen 3 3 (1, 1, 2, 2) = (1, 1, 2, 2)
  ∧ ((1 : ℚ) * 1000 / 3).den ≠ 1 :=
  ⟨by with_unfolding_all rfl, by with_unfolding_all decide,
   by with_unfolding_all rfl, by with_unfolding_all decide⟩

/-- C8 (amended): for every canvas with `W, H ≥ 1` and every pixel corner
box inside the canvas, converting to `YoloNormalized` or `Qwen1000` with
`toEncoding` and back with `toPixelCorners` reproduces the box exactly —
in particular within the claimed ±1 pixel tolerance — including when the
intermediate values are non-integer. -/
theorem C8_round_trip_exact (x1 y1 x2 y2 W H : ℤ)
    (hW : 1 ≤ W) (hH : 1 ≤ H)
    (hx1 : 0 ≤ x1) (hx1W : x1 ≤ W - 1) (hy1 : 0 ≤ y1) (hy1H : y1 ≤ H - 1)
    (hx2 : 0 ≤ x2) (hx2W : x2 ≤ W - 1) (hy2 : 0 ≤ y2) (hy2H : y2 ≤ H - 1) :
    roundTripYolo W H (x1, y1, x2, y2) = (x1, y1, x2, y2)
  ∧ roundTripQwen W H (x1, y1, x2, y2) = (x1, y1, x2, y2) := by
  have hW0 : ((W : ℚ)) ≠ 0 := by
    have : (0 : ℚ) < (W : ℚ) := by exact_mod_cast lt_of_lt_of_le Int.zero_lt_one hW
    exact ne_of_gt this
  have hH0 : ((H : ℚ)) ≠ 0 := by
    have : (0 : ℚ) < (H : ℚ) := by exact_mod_cast lt_of_lt_of_le Int.zero_lt_one hH
    exact ne_of_gt this
  constructor
  · simp only [roundTripYolo, toEncodingYoloNormalized]
    rw [yolo_to_corners_true]
    have e1 : ((x1 : ℚ) + x2) / 2 / W * W - ((x2 : ℚ) - x1) / W * W / 2 = ((x1 : ℤ) : ℚ) := by
      field_simp
      ring
    have e2 : ((y1 : ℚ) + y2) / 2 / H * H - ((y2 : ℚ) - y1) / H * H / 2 = ((y1 : ℤ) : ℚ) := by
      field_simp
      ring
    have e3 : ((x1 : ℚ) + x2) / 2 / W * W + ((x2 : ℚ) - x1) / W * W / 2 = ((x2 : ℤ) : ℚ) := by
      field_simp
      ring
    have e4 : ((y1 : ℚ) + y2) / 2 / H * H + ((y2 : ℚ) - y1) / H * H / 2 = ((y2 : ℤ) : ℚ) := by
      field_simp
      ring
    rw [e1, e2, e3, e4, pyRound_intCast, pyRound_intCast, pyRound_intCast,
      pyRound_intCast, clampTo_eq_self hx1 hx1W, clampTo_eq_self hy1 hy1H,
      clampTo_eq_self hx2 hx2W, clampTo_eq_self hy2 hy2H]
  · simp only [roundTripQwen, toEncodingQwen1000, qwen1000_to_corners]
    have e1 : (x1 : ℚ) * 1000 / W * ((W : ℚ) / 1000) = ((x1 : ℤ) : ℚ) := by
      field_simp
    have e2 : (y1 : ℚ) * 1000 / H * ((H : ℚ) / 1000) = ((y1 : ℤ) : ℚ) := by
      field_simp
    have e3 : (x2 : ℚ) * 1000 / W * ((W : ℚ) / 1000) = ((x2 : ℤ) : ℚ) := by
      field_simp
    have e4 : (y2 : ℚ) * 1000 / H * ((H : ℚ) / 1000) = ((y2 : ℤ) : ℚ) := by
      field_simp
    rw [e1, e2, e3, e4, pyRound_intCast, pyRound_intCast, pyRound_intCast,
      pyRound_intCast, clampTo_eq_self hx1 hx1W, clampTo_eq_self hy1 hy1H,
      clampTo_eq_self hx2 hx2W, clampTo_eq_self hy2 hy2H]

theorem C8_witness :
    roundTripYolo 10 8 (2, 3, 5, 7) = (2, 3, 5, 7)
  ∧ roundTripQwen 10 8 (2, 3, 5, 7) = (2, 3, 5, 7) :=
  C8_round_trip_exact 2 3 5 7 10 8 (by decide) (by decide) (by decide)
    (by decide) (by decide) (by decide) (by decide) (by decide) (by decide)
    (by decide)

/-- C9 (confirmed): for every canvas with `W ≥ 1` and `H ≥ 1` and arbitrary
numeric input, the YOLO center-form and Qwen-1000 conversion paths return
integer corners inside `[0, W-1] × [0, H-1]`; and because rounding and
clamping are monotone, a well-oriented input box (`w, h ≥ 0` in center
form, `x1 ≤ x2` and `y1 ≤ y2` in Qwen corners) yields well-oriented output
corners. -/
theorem C9_converted_corners_invariants (xc yc w h x1 y1 x2 y2 : ℚ)
    (W H : ℤ) (normalized : Bool) (hW : 1 ≤ W) (hH : 1 ≤ H) :
    inCanvas W H (yolo_to_corners xc yc w h W H normalized)
  ∧ inCanvas W H (qwen1000_to_corners x1 y1 x2 y2 W H)
  ∧ (0 ≤ w → 0 ≤ h → oriented (yolo_to_corners xc yc w h W H normalized))
  ∧ (x1 ≤ x2 → y1 ≤ y2 → oriented (qwen1000_to_corners x1 y1 x2 y2 W H)) := by
  have hWq : (0 : ℚ) ≤ (W : ℚ) := by exact_mod_cast le_trans (by omega : (0:ℤ) ≤ 1) hW
  have hHq : (0 : ℚ) ≤ (H : ℚ) := by exact_mod_cast le_trans (by omega : (0:ℤ) ≤ 1) hH
  refine ⟨?_, ?_, fun hw hh => ?_, fun hx hy => ?_⟩
  · cases normalized <;>
      exact ⟨clampTo_nonneg _ _, clampTo_le hW _, clampTo_nonneg _ _,
        clampTo_le hH _, clampTo_nonneg _ _, clampTo_le hW _,
        clampTo_nonneg _ _, clampTo_le hH _⟩
  · exact ⟨clampTo_nonneg _ _, clampTo_le hW _, clampTo_nonneg _ _,
      clampTo_le hH _, clampTo_nonneg _ _, clampTo_le hW _,
      clampTo_nonneg _ _, clampTo_le hH _⟩
  · cases normalized
    · rw [yolo_to_corners_false]
      exact ⟨clampTo_mono _ (pyRound_mono (by linarith)),
        clampTo_mono _ (pyRound_mono (by linarith))⟩
    · rw [yolo_to_corners_true]
      have h1 : 0 ≤ w * (W : ℚ) := mul_nonneg hw hWq
      have h2 : 0 ≤ h * (H : ℚ) := mul_nonneg hh hHq
      exact ⟨clampTo_mono _ (pyRound_mono (by linarith)),
        clampTo_mono _ (pyRound_mono (by linarith))⟩
  · have hsx : (0 : ℚ) ≤ (W : ℚ) / 1000 := by positivity
    have hsy : (0 : ℚ) ≤ (H : ℚ) / 1000 := by positivity
    exact ⟨clampTo_mono _ (pyRound_mono (mul_le_mul_of_nonneg_right hx hsx)),
      clampTo_mono _ (pyRound_mono (mul_le_mul_of_nonneg_right hy hsy))⟩

theorem C9_witness :
    inCanvas 640 480 (yolo_to_corners 0.5 0.5 0.1 0.1 640 480 true)
  ∧ inCanvas 640 480 (qwen1000_to_corners 100 100 200 200 640 480)
  ∧ ((0 : ℚ) ≤ 0.1 → (0 : ℚ) ≤ 0.1 →
      oriented (yolo_to_corners 0.5 0.5 0.1 0.1 640 480 true))
  ∧ ((100 : ℚ) ≤ 200 → (100 : ℚ) ≤ 200 →
      oriented (qwen1000_to_corners 100 100 200 200 640 480)) :=
  C9_converted_corners_invariants 0.5 0.5 0.1 0.1 100 100 200 200 640 480
    true (by decide) (by decide)

/-- C10 (confirmed): under the declared `Qwen-1000` format a box with 5 or
more elements is exported through the already-YOLO branch verbatim —
element 0 truncated to the integer class id and elements 1-4 printed with
6 decimals, with no division by 1000 — while under any other declared
format a box with exactly 4 elements produces no output line. -/
theorem C10_export_length_edge_cases (c0 a b c d : ℚ)
    (rest : List (Option ℚ)) (fmtT : String) (hfmt : fmtT ≠ "Qwen-1000") :
    save_yolo_labels_auto
        [some c0 :: some a :: some b :: some c :: some d :: rest] "Qwen-1000" =
      Except.ok [(truncQ c0, [formatFixed 6 a, formatFixed 6 b,
        formatFixed 6 c, formatFixed 6 d])]
  ∧ save_yolo_labels_auto [[some a, some b, some c, some d]] fmtT =
      Except.ok [] := by
  constructor
  · have hne : (some c0 :: some a :: some b :: some c :: some d :: rest).length ≠ 4 := by
      simp
    have hge : 5 ≤ (some c0 :: some a :: some b :: some c :: some d :: rest).length := by
      simp
    simp [save_yolo_labels_auto, save_one, hne, hge]
  · simp [save_yolo_labels_auto, save_one, hfmt]

theorem C10_witness :
    save_yolo_labels_auto
        [[some 0, some 0.35, some 0.38, some 0.08, some 0.03]] "Qwen-1000" =
      Except.ok [(truncQ 0, [formatFixed 6 0.35, formatFixed 6 0.38,
        formatFixed 6 0.08, formatFixed 6 0.03])]
  ∧ save_yolo_labels_auto [[some 250, some 250, some 500, some 500]] "YOLO" =
      Except.ok [] :=
  C10_export_length_edge_cases 0 0.35 0.38 0.08 0.03 [] "YOLO"
    (by decide)

end ImagePython
